import Mathlib

/-!
Verification of the spheremon monitoring engine (src/spheremon/main.c) against its
natural-language specification.  The C code is shallowly embedded: C strings are
lists of characters, the key-value store is a mock with controllable key presence,
C `int` counters are `Int`/`Nat`, and `double` rate arithmetic is carried out
exactly over `ℚ`.  Each embedded definition is annotated with the source lines it
models.
-/

namespace Spheremon

/-- A C string (no interior NUL bytes), e.g. a Redis key name or a command name. -/
abbrev Str := List Char

/-- The mock key-value store used for existence checks: the list of keys present. -/
abbrev Store := List Str

/-- The store's EXISTS query (the collaborator operation `Redis_EXISTS` used at
main.c:101).  EXISTS is a read-only round trip: it answers whether the key is
present and leaves the store as it was. -/
def Redis_EXISTS (s : Store) (k : Str) : Bool × Store :=
  (s.contains k, s)

/-- The loop body of `checkKeys` (main.c:94-104): walk the key array in order,
issuing one EXISTS round trip per key and accumulating `lostCount += !EXISTS`.
Besides the accumulator the embedding records the sequence of keys queried and
threads the store state returned by each EXISTS call. -/
def checkKeysGo : Nat → List Str → Store → List Str → Nat × List Str × Store
  | acc, queried, s, [] => (acc, queried, s)
  | acc, queried, s, k :: rest =>
    checkKeysGo (acc + (if (Redis_EXISTS s k).1 then 0 else 1))
      (queried ++ [k]) (Redis_EXISTS s k).2 rest

/-- `checkKeys` (main.c:94-104): the lost count returned for a key array. -/
def checkKeys (s : Store) (keys : List Str) : Nat :=
  (checkKeysGo 0 [] s keys).1

/-- The sequence of keys `checkKeys` queries with EXISTS, in order (main.c:98-102). -/
def checkKeysQueried (s : Store) (keys : List Str) : List Str :=
  (checkKeysGo 0 [] s keys).2.1

/-- The store state after a `checkKeys` call has issued all of its EXISTS queries. -/
def checkKeysStore (s : Store) (keys : List Str) : Store :=
  (checkKeysGo 0 [] s keys).2.2

/-- `checkKeys` including its entry assertion `assert(keys && keys->count)`
(main.c:96): the key-array pointer may be NULL (`none`), and the assertion also
demands a non-zero element count; a failed assertion aborts (`none` result). -/
def checkKeysChecked (s : Store) (keys : Option (List Str)) : Option Nat :=
  match keys with
  | none => none
  | some ks => if ks.length = 0 then none else some (checkKeys s ks)

/-- The watch thread's smoothed-rate loop (`watchThreadFunc`, main.c:190-221),
driven by the sequence of values the shared counter `msgCount` has at each wake-up.
State: `last` (previous sampled count, initially 0), `perSec` (smoothed rate,
initially 0), and `isFirst` (whether `timeIncr` is still 0, i.e. no report is
emitted this iteration).  Each iteration recomputes `perSec` — using the
`!last` branch when the previous sample was zero — and, from the second
iteration on, reports it.  The returned list is the sequence of reported
smoothed rates. -/
def watchLoop (d : ℚ) : ℚ → ℚ → Bool → List ℚ → List ℚ
  | _, _, _, [] => []
  | last, perSec, isFirst, c :: rest =>
    if isFirst then
      watchLoop d c (if last = 0 then c / d else ((c - last) / d + perSec) / 2) false rest
    else
      (if last = 0 then c / d else ((c - last) / d + perSec) / 2) ::
        watchLoop d c (if last = 0 then c / d else ((c - last) / d + perSec) / 2) false rest

/-- The smoothed rates the watch thread reports when the sampled cumulative counts
are `counts`, with interval `d` seconds (`SLEEP_TIME_SECONDS = 5.0` in the code):
`watchLoop` started from the code's initial state `last = 0`, `perSec = 0`,
`timeIncr = 0` (main.c:190-193). -/
def watchReports (d : ℚ) (counts : List ℚ) : List ℚ :=
  watchLoop d 0 0 true counts

/-- Modelled from the spec: the rate-smoothing recurrence of §4.3/§8 stated over
the sampled cumulative counts — `r0 = (c1 - c0)/Δt` for the first reported rate
and `ri = ((c(i+1) - ci)/Δt + r(i-1))/2` afterwards.  `prev` is the previously
sampled count and `rPrev` the previously reported rate (`none` before the first
report). -/
def specRates (d : ℚ) : ℚ → Option ℚ → List ℚ → List ℚ
  | _, _, [] => []
  | prev, rPrev, c :: rest =>
    (match rPrev with
      | none => (c - prev) / d
      | some r0 => ((c - prev) / d + r0) / 2) ::
      specRates d c
        (some (match rPrev with
          | none => (c - prev) / d
          | some r0 => ((c - prev) / d + r0) / 2)) rest

/-- The deviation flag token of the watch report (main.c:209): `"!>!"` when the
instantaneous rate exceeds 1.5 times the smoothed rate, otherwise `"!<!"` when it
is below 0.5 times the smoothed rate, otherwise the empty token. -/
def flagToken (curPerSec perSec : ℚ) : String :=
  if curPerSec > perSec * 1.5 then "!>!"
  else if curPerSec < perSec * 0.5 then "!<!"
  else ""

/-- The shared counters read and written by the command thread (main.c:154-158):
`msgCount` and `lastLost` are C `int`s, `trackedKeyCount` a C `int`, and
`running` the shutdown flag. -/
structure CmdState where
  msgCount : Int
  trackedKeyCount : Int
  lastLost : Int
  running : Bool

deriving instance DecidableEq, Repr for CmdState

/-- The command name prefix `"message-count"` (main.c:281). -/
def mcName : Str := "message-count".data

/-- The command name prefix `"tracked-keys"` (main.c:283). -/
def tkName : Str := "tracked-keys".data

/-- The command name prefix `"killkillkill"` (main.c:285). -/
def killName : Str := "killkillkill".data

/-- The result key/channel namespace `"spheremon:command:result:"` (main.c:297-300). -/
def resultNS : Str := "spheremon:command:result:".data

/-- Command dispatch of `cmdThreadFunc` (main.c:278-293): the chain of
`!strncmp(NAME, cmdStr, strlen(NAME))` tests, i.e. prefix matches against the
received command string, in source order.  Returns the updated shared state and
the response string placed in `sBuf` (`none` when `sBufHasResp` ends up false).
`"message-count"` renders `msgCount` in decimal; `"tracked-keys"` renders
`trackedKeyCount - lastLost` over `trackedKeyCount`; `"killkillkill"` clears
`running` and has no response; anything else has no response and no effect. -/
def dispatch (st : CmdState) (cmdStr : Str) : CmdState × Option String :=
  if mcName.isPrefixOf cmdStr then
    (st, some (toString st.msgCount))
  else if tkName.isPrefixOf cmdStr then
    (st, some (toString (st.trackedKeyCount - st.lastLost) ++ "/" ++
      toString st.trackedKeyCount))
  else if killName.isPrefixOf cmdStr then
    (⟨st.msgCount, st.trackedKeyCount, st.lastLost, false⟩, none)
  else
    (st, none)

/-- An observable store-side effect of handling one control message. -/
inductive Effect where
  | openConn : Effect
  | setKey : Str → String → Bool → Effect
  | publish : Str → String → Effect
  | closeConn : Effect

deriving instance DecidableEq, Repr for Effect

/-- The response path of `cmdThreadFunc` for a command that produced a response
(main.c:295-313): build the channel name `"spheremon:command:result:<cmdStr>"`,
open a temporary connection, attempt `Redis_SET` of the response under that key
(recording whether it succeeded), attempt `Redis_PUBLISH` of the same value on
the identically named channel unconditionally, and close the temporary
connection. -/
def respondEffects (cmdStr : Str) (resp : String) (setOk : Bool) : List Effect :=
  [Effect.openConn,
   Effect.setKey (resultNS ++ cmdStr) resp setOk,
   Effect.publish (resultNS ++ cmdStr) resp,
   Effect.closeConn]

/-- A Redis protocol object as surfaced by `RedisConnection_getNextObject`
(the yarl collaborator): the `obj` payload pointer of a bulk string or array may
be NULL, which the code tests separately from the type tag (main.c:271-274). -/
inductive RObj where
  | noType : RObj
  | simpleString : Str → RObj
  | err : Str → RObj
  | integer : Int → RObj
  | bulkString : Option Str → RObj
  | array : Option (List RObj) → RObj

/-- The shape filter of `cmdThreadFunc` (main.c:271-274): a message is actionable
exactly when it is a non-NULL array whose `count == 3` and whose element at index
2 is a bulk string with a non-NULL payload; the payload is the command string.
Every other shape yields `none` (silently discarded). -/
def actionable : RObj → Option Str
  | RObj.array (some objs) =>
    if objs.length = 3 then
      match objs[2]? with
      | some (RObj.bulkString (some cmdStr)) => some cmdStr
      | _ => none
    else none
  | _ => none

/-- One iteration of the command thread on an inbound message (main.c:267-318):
apply the shape filter, dispatch the command against the shared state, and if a
response was produced, run the response path (`setOk` says whether the
`Redis_SET` round trip succeeds).  Non-actionable messages and response-less
commands produce no effects. -/
def handleMessage (st : CmdState) (msg : RObj) (setOk : Bool) : CmdState × List Effect :=
  match actionable msg with
  | none => (st, [])
  | some cmdStr =>
    match dispatch st cmdStr with
    | (st2, none) => (st2, [])
    | (st2, some resp) => (st2, respondEffects cmdStr resp setOk)

/-- A well-formed message as delivered on the control channel: a 3-element array
whose element at index 2 carries the command payload (elements 0 and 1 are the
subscription kind and channel name). -/
def cmdMsg (cmd : Str) : RObj :=
  RObj.array (some
    [RObj.bulkString (some "message".data),
     RObj.bulkString (some "spheremon:command".data),
     RObj.bulkString (some cmd)])

/-- The element list of a four-element control message whose element at index 2
is a valid printable command name: well-formed by the spec's "at least 3
elements" reading, but not `count == 3`. -/
def fourElemList : List RObj :=
  [RObj.bulkString (some "message".data),
   RObj.bulkString (some "spheremon:command".data),
   RObj.bulkString (some mcName),
   RObj.bulkString (some "x".data)]

/-- The four-element control message built from `fourElemList`. -/
def fourElemMsg : RObj :=
  RObj.array (some fourElemList)

/-- The four long-running loops of the program (§2 of the spec): the liveness
poller runs on the main control flow (main.c:459-481); the activity tracker is
`psubThreadFunc`, the command handler `cmdThreadFunc`, and the periodic
self-report/rate loop `watchThreadFunc`. -/
inductive Worker where
  | livenessPoller : Worker
  | activity : Worker
  | command : Worker
  | watch : Worker

deriving instance DecidableEq, Repr for Worker

/-- The ordered list of `pthread_join` calls the main control flow performs after
`running` becomes false (main.c:484-485): `psubThread` (the activity tracker)
then `commandThread` (the command handler).  `watchThread` is never joined. -/
def shutdownJoins : List Worker :=
  [Worker.activity, Worker.command]

end Spheremon

namespace Spheremon

/-- Unfolding of the `checkKeys` loop: the accumulator picks up one unit per
absent key, every key is appended to the query trace, and the store is returned
unchanged. -/
theorem checkKeysGo_spec (s : Store) (keys : List Str) (acc : Nat) (q : List Str) :
    checkKeysGo acc q s keys =
      (acc + keys.countP (fun k => !s.contains k), q ++ keys, s) := by
  induction keys generalizing acc q with
  | nil => simp [checkKeysGo]
  | cons k rest ih =>
    simp only [checkKeysGo, Redis_EXISTS, ih, List.countP_cons, List.append_assoc,
      List.singleton_append, Prod.mk.injEq]
    rcases Bool.eq_false_or_eq_true (s.contains k) with h | h <;> simp [h] <;> omega

/-- Claim C1: for every store state and key array, `checkKeys` returns exactly the
number of keys whose EXISTS check reports absence, that count never exceeds the
number of keys, each key is queried exactly once per cycle in array order, and a
failed check never aborts the loop (the query trace covers the whole array
regardless of the results). -/
theorem checkKeys_lost_count_correct (s : Store) (keys : List Str) :
    checkKeys s keys = keys.countP (fun k => !s.contains k) ∧
    checkKeys s keys ≤ keys.length ∧
    checkKeysQueried s keys = keys := by
  refine ⟨?_, ?_, ?_⟩
  · simp [checkKeys, checkKeysGo_spec]
  · simp only [checkKeys, checkKeysGo_spec, Nat.zero_add]
    exact List.countP_le_length _
  · simp [checkKeysQueried, checkKeysGo_spec]

/-- Claim C8: `checkKeys` is deterministic in the store state: a call leaves the
store unchanged, so a second consecutive call against the resulting (unchanged)
store returns the same lost count. -/
theorem checkKeys_idempotent (s : Store) (keys : List Str) :
    checkKeysStore s keys = s ∧
    checkKeys (checkKeysStore s keys) keys = checkKeys s keys := by
  constructor
  · simp [checkKeysStore, checkKeysGo_spec]
  · simp [checkKeys, checkKeysStore, checkKeysGo_spec]

/-- Claim C10: `checkKeys` asserts a non-null, non-empty key array on entry
(main.c:96): the assertion fails on a NULL pointer and on an empty array, and for
every non-empty key array it holds and the call completes, returning the lost
count. -/
theorem checkKeys_assert (s : Store) (keys : List Str) (h : keys ≠ []) :
    checkKeysChecked s none = none ∧
    checkKeysChecked s (some []) = none ∧
    checkKeysChecked s (some keys) = some (checkKeys s keys) := by
  refine ⟨rfl, rfl, ?_⟩
  simp [checkKeysChecked, List.length_eq_zero, h]

/-- Concrete instance of `checkKeys_assert`: a singleton key array passes the
assertion and is counted (the key is absent from the empty store), while the NULL
array fails the assertion. -/
theorem checkKeys_assert_witness :
    checkKeysChecked [] (some ["k".data]) = some 1 ∧
    checkKeysChecked [] none = none := by
  have h := checkKeys_assert [] ["k".data] (by simp)
  exact ⟨h.2.2.trans (by rfl), h.1⟩

/-- Once a nonzero count has been sampled (so the code's `!last` test stays
false), the watch loop follows the spec's smoothing recurrence exactly. -/
theorem watchLoop_eq_specRates (d : ℚ) (counts : List ℚ) :
    ∀ prev r : ℚ, prev ≠ 0 → (∀ c ∈ counts, c ≠ 0) →
      watchLoop d prev r false counts = specRates d prev (some r) counts := by
  induction counts with
  | nil =>
    intro prev r _ _
    rfl
  | cons c cs ih =>
    intro prev r hprev h
    have hc : c ≠ 0 := h c (List.mem_cons_self c cs)
    have hcs : ∀ x ∈ cs, x ≠ 0 := fun x hx => h x (List.mem_cons_of_mem c hx)
    simp only [watchLoop, specRates, Bool.false_eq_true, if_false, if_neg hprev]
    exact congrArg _ (ih c _ hc hcs)

/-- Claim C2 counterexample: sampled cumulative counts 0, 100, 200, 500, 550, 600
(deltas 100, 100, 300, 50, 50) over 5-second intervals make the watch thread
report smoothed rates 20, 20, 40, 25, 17.5 — not the 20, 20, 30, 25, 22.5 the
claim asserts (which also disagree with the claim's own recurrence). -/
theorem watchReports_example_counterexample :
    watchReports 5 [0, 100, 200, 500, 550, 600] = [20, 20, 40, 25, 17.5] ∧
    watchReports 5 [0, 100, 200, 500, 550, 600] ≠ [20, 20, 30, 25, 22.5] := by
  constructor <;> norm_num [watchReports, watchLoop]

/-- Claim C2 (amended): when the count sampled at the watch thread's first
wake-up is 0 and every later sampled count is nonzero (so the code's `!last`
initial-condition test coincides with "first sample"), the reported smoothed
rates satisfy exactly `r0 = (c1 - c0)/Δt` and
`ri = ((c(i+1) - ci)/Δt + r(i-1))/2` (fixed decay 0.5 per interval); deltas
100, 100, 300, 50, 50 with Δt = 5 then yield 20, 20, 40, 25, 17.5. -/
theorem watchReports_follow_recurrence (d : ℚ) (rest : List ℚ)
    (h : ∀ c ∈ rest, c ≠ 0) :
    watchReports d (0 :: rest) = specRates d 0 none rest := by
  cases rest with
  | nil => rfl
  | cons c cs =>
    have hc : c ≠ 0 := h c (List.mem_cons_self c cs)
    have hcs : ∀ x ∈ cs, x ≠ 0 := fun x hx => h x (List.mem_cons_of_mem c hx)
    simp only [watchReports, watchLoop, specRates, if_pos rfl, if_true,
      Bool.false_eq_true, if_false, zero_div, sub_zero]
    exact congrArg _ (watchLoop_eq_specRates d cs c (c / d) hc hcs)

/-- Concrete instance of `watchReports_follow_recurrence`: the counts
0, 100, 200, 500, 550, 600 over Δt = 5 follow the recurrence, which evaluates to
the reported rates 20, 20, 40, 25, 17.5. -/
theorem watchReports_follow_recurrence_witness :
    watchReports 5 [0, 100, 200, 500, 550, 600] =
      specRates 5 0 none [100, 200, 500, 550, 600] ∧
    specRates 5 0 none [100, 200, 500, 550, 600] = [20, 20, 40, 25, 17.5] := by
  have h := watchReports_follow_recurrence 5 [100, 200, 500, 550, 600]
    (by norm_num)
  exact ⟨h, by norm_num [specRates]⟩

/-- Claim C6: for every instantaneous rate `cur` and (nonnegative, as all rates
produced by the watch thread are) smoothed rate `per`, the report carries the
over-threshold token `"!>!"` exactly when `cur > 1.5 * per`, the under-threshold
token `"!<!"` exactly when `cur < 0.5 * per`, and no token otherwise; the two
threshold conditions are mutually exclusive, and exactly at the 1.5x and 0.5x
boundaries no token is produced. -/
theorem flagToken_thresholds (cur per : ℚ) (h : 0 ≤ per) :
    (flagToken cur per = "!>!" ↔ cur > per * 1.5) ∧
    (flagToken cur per = "!<!" ↔ cur < per * 0.5) ∧
    (flagToken cur per = "" ↔ ¬cur > per * 1.5 ∧ ¬cur < per * 0.5) ∧
    ¬(cur > per * 1.5 ∧ cur < per * 0.5) ∧
    flagToken (per * 1.5) per = "" ∧
    flagToken (per * 0.5) per = "" := by
  have hexcl : ¬(cur > per * 1.5 ∧ cur < per * 0.5) := by
    rintro ⟨h1, h2⟩
    nlinarith
  have hne1 : ("!>!" : String) ≠ "" := by decide
  have hne2 : ("!<!" : String) ≠ "" := by decide
  have hne3 : ("!>!" : String) ≠ "!<!" := by decide
  refine ⟨?_, ?_, ?_, hexcl, ?_, ?_⟩
  · unfold flagToken
    by_cases h1 : cur > per * 1.5
    · simp [h1]
    · simp only [if_neg h1]
      by_cases h2 : cur < per * 0.5 <;> simp [h2, hne3.symm, hne1.symm, h1]
  · unfold flagToken
    by_cases h1 : cur > per * 1.5
    · simp only [if_pos h1]
      constructor
      · intro hh
        exact absurd hh hne3
      · intro hh
        exact absurd ⟨h1, hh⟩ hexcl
    · simp only [if_neg h1]
      by_cases h2 : cur < per * 0.5 <;> simp [h2, hne2.symm]
  · unfold flagToken
    by_cases h1 : cur > per * 1.5
    · simp [h1, hne1]
    · simp only [if_neg h1]
      by_cases h2 : cur < per * 0.5 <;> simp [h2, hne2, h1]
  · unfold flagToken
    have h1 : ¬per * 1.5 > per * 1.5 := lt_irrefl _
    have h2 : ¬per * 1.5 < per * 0.5 := by nlinarith
    simp [h1, h2]
  · unfold flagToken
    have h1 : ¬per * 0.5 > per * 1.5 := by nlinarith
    have h2 : ¬per * 0.5 < per * 0.5 := lt_irrefl _
    simp [h1, h2]

/-- Concrete instances of `flagToken_thresholds` at smoothed rate 2: an
instantaneous rate of 4 raises the over token, 0 raises the under token, and 2
(as well as the exact boundaries 3 and 1) raises none. -/
theorem flagToken_thresholds_witness :
    flagToken 4 2 = "!>!" ∧ flagToken 0 2 = "!<!" ∧ flagToken 2 2 = "" ∧
    flagToken 3 2 = "" ∧ flagToken 1 2 = "" := by
  have h0 : (0 : ℚ) ≤ 2 := by norm_num
  refine ⟨(flagToken_thresholds 4 2 h0).1.mpr (by norm_num),
    (flagToken_thresholds 0 2 h0).2.1.mpr (by norm_num),
    (flagToken_thresholds 2 2 h0).2.2.1.mpr ⟨by norm_num, by norm_num⟩,
    ?_, ?_⟩
  · have h := (flagToken_thresholds 3 2 h0).2.2.2.2.1
    calc flagToken 3 2 = flagToken (2 * 1.5) 2 := by norm_num
      _ = "" := h
  · have h := (flagToken_thresholds 1 2 h0).2.2.2.2.2
    calc flagToken 1 2 = flagToken (2 * 0.5) 2 := by norm_num
      _ = "" := h

/-- Reduction of `handleMessage` on an actionable message whose dispatch
produced a response. -/
theorem handleMessage_resp (st : CmdState) (msg : RObj) (cmd : Str) (resp : String)
    (setOk : Bool) (st2 : CmdState)
    (hact : actionable msg = some cmd) (hdisp : dispatch st cmd = (st2, some resp)) :
    handleMessage st msg setOk = (st2, respondEffects cmd resp setOk) := by
  have hh : handleMessage st msg setOk =
      match dispatch st cmd with
      | (st3, none) => (st3, [])
      | (st3, some r) => (st3, respondEffects cmd r setOk) := by
    unfold handleMessage
    rw [hact]
  rw [hh, hdisp]

/-- Reduction of `handleMessage` on an actionable message whose dispatch
produced no response. -/
theorem handleMessage_noresp (st : CmdState) (msg : RObj) (cmd : Str)
    (setOk : Bool) (st2 : CmdState)
    (hact : actionable msg = some cmd) (hdisp : dispatch st cmd = (st2, none)) :
    handleMessage st msg setOk = (st2, []) := by
  have hh : handleMessage st msg setOk =
      match dispatch st cmd with
      | (st3, none) => (st3, [])
      | (st3, some r) => (st3, respondEffects cmd r setOk) := by
    unfold handleMessage
    rw [hact]
  rw [hh, hdisp]

/-- Claim C3 counterexample: the command name `"message-count-extra"`, which is
none of the three recognized names, still produces the `"42"` response when
`msgCount = 42`, because dispatch matches by string prefix — refuting "any other
command name produces no response". -/
theorem dispatch_other_name_counterexample :
    (dispatch ⟨42, 10, 3, true⟩ "message-count-extra".data).2 = some "42" ∧
    "message-count-extra".data ≠ mcName ∧
    "message-count-extra".data ≠ tkName ∧
    "message-count-extra".data ≠ killName := by
  refine ⟨by decide, by decide, by decide, by decide⟩

/-- Claim C3 (amended): for every shared-counter state, `"message-count"`
produces the decimal rendering of `msgCount`; `"tracked-keys"` produces
`"<trackedKeyCount - lastLostCount>/<trackedKeyCount>"`; `"killkillkill"` clears
`running` and produces no response write or publish; and any command name that
does not begin with one of the three recognized prefixes produces no response
and changes no state. -/
theorem dispatch_commands (st : CmdState) :
    dispatch st mcName = (st, some (toString st.msgCount)) ∧
    dispatch st tkName = (st, some (toString (st.trackedKeyCount - st.lastLost) ++
      "/" ++ toString st.trackedKeyCount)) ∧
    dispatch st killName = (⟨st.msgCount, st.trackedKeyCount, st.lastLost, false⟩, none) ∧
    (∀ setOk : Bool, handleMessage st (cmdMsg killName) setOk =
      (⟨st.msgCount, st.trackedKeyCount, st.lastLost, false⟩, [])) ∧
    (∀ cmd : Str, mcName.isPrefixOf cmd = false → tkName.isPrefixOf cmd = false →
      killName.isPrefixOf cmd = false → dispatch st cmd = (st, none)) := by
  have h1 : mcName.isPrefixOf mcName = true := by decide
  have h2 : mcName.isPrefixOf tkName = false := by decide
  have h3 : tkName.isPrefixOf tkName = true := by decide
  have h4 : mcName.isPrefixOf killName = false := by decide
  have h5 : tkName.isPrefixOf killName = false := by decide
  have h6 : killName.isPrefixOf killName = true := by decide
  have hkill : dispatch st killName =
      (⟨st.msgCount, st.trackedKeyCount, st.lastLost, false⟩, none) := by
    simp [dispatch, h4, h5, h6]
  refine ⟨by simp [dispatch, h1], by simp [dispatch, h2, h3], hkill, ?_, ?_⟩
  · intro setOk
    exact handleMessage_noresp st (cmdMsg killName) killName setOk _ rfl hkill
  · intro cmd hmc htk hk
    simp [dispatch, hmc, htk, hk]

/-- Concrete instances of `dispatch_commands`: `msgCount = 42` answers `"42"`;
10 tracked keys with 3 lost answer `"7/10"`; the kill command clears `running`
with no effects; `"noop"` is ignored. -/
theorem dispatch_commands_witness :
    dispatch ⟨42, 10, 3, true⟩ mcName = (⟨42, 10, 3, true⟩, some "42") ∧
    dispatch ⟨42, 10, 3, true⟩ tkName = (⟨42, 10, 3, true⟩, some "7/10") ∧
    dispatch ⟨42, 10, 3, true⟩ killName = (⟨42, 10, 3, false⟩, none) ∧
    handleMessage ⟨42, 10, 3, true⟩ (cmdMsg killName) true = (⟨42, 10, 3, false⟩, []) ∧
    dispatch ⟨42, 10, 3, true⟩ "noop".data = (⟨42, 10, 3, true⟩, none) := by
  have h := dispatch_commands ⟨42, 10, 3, true⟩
  exact ⟨h.1.trans (by decide), h.2.1.trans (by decide), h.2.2.1,
    h.2.2.2.1 true, h.2.2.2.2 "noop".data (by decide) (by decide) (by decide)⟩

/-- Claim C9: command recognition is by string prefix — every command string
beginning with `"message-count"`, `"tracked-keys"` or `"killkillkill"` is
dispatched as that command, and for responding commands the result key/channel
name embeds the full received command string,
`"spheremon:command:result:<full received string>"`. -/
theorem dispatch_prefix_match (st : CmdState) (rest : List Char) :
    dispatch st (mcName ++ rest) = (st, some (toString st.msgCount)) ∧
    dispatch st (tkName ++ rest) = (st, some (toString (st.trackedKeyCount - st.lastLost) ++
      "/" ++ toString st.trackedKeyCount)) ∧
    dispatch st (killName ++ rest) =
      (⟨st.msgCount, st.trackedKeyCount, st.lastLost, false⟩, none) ∧
    (∀ setOk : Bool,
      handleMessage st (cmdMsg (mcName ++ rest)) setOk =
        (st, [Effect.openConn,
              Effect.setKey (resultNS ++ (mcName ++ rest)) (toString st.msgCount) setOk,
              Effect.publish (resultNS ++ (mcName ++ rest)) (toString st.msgCount),
              Effect.closeConn])) := by
  have hp1 : mcName.isPrefixOf (mcName ++ rest) = true := by
    simp [List.isPrefixOf_iff_prefix, List.prefix_append]
  have hp2 : mcName.isPrefixOf (tkName ++ rest) = false := by
    simp [mcName, tkName, List.isPrefixOf_cons₂]
  have hp3 : tkName.isPrefixOf (tkName ++ rest) = true := by
    simp [List.isPrefixOf_iff_prefix, List.prefix_append]
  have hp4 : mcName.isPrefixOf (killName ++ rest) = false := by
    simp [mcName, killName, List.isPrefixOf_cons₂]
  have hp5 : tkName.isPrefixOf (killName ++ rest) = false := by
    simp [tkName, killName, List.isPrefixOf_cons₂]
  have hp6 : killName.isPrefixOf (killName ++ rest) = true := by
    simp [List.isPrefixOf_iff_prefix, List.prefix_append]
  have hmc : dispatch st (mcName ++ rest) = (st, some (toString st.msgCount)) := by
    simp [dispatch, hp1]
  refine ⟨hmc, by simp [dispatch, hp2, hp3], by simp [dispatch, hp4, hp5, hp6], ?_⟩
  intro setOk
  exact (handleMessage_resp st (cmdMsg (mcName ++ rest)) (mcName ++ rest)
    (toString st.msgCount) setOk st rfl hmc).trans rfl

/-- Claim C4 counterexample: a four-element array whose element at index 2 is a
valid printable command name has at least 3 elements, yet `cmdThreadFunc`
discards it (`arr->count == 3` is an exact-arity test), so it is not actionable
and produces no effects and no state change. -/
theorem actionable_arity_counterexample :
    actionable fourElemMsg = none ∧
    fourElemList.length = 4 ∧
    fourElemList[2]? = some (RObj.bulkString (some mcName)) ∧
    (∀ st : CmdState, ∀ setOk : Bool, handleMessage st fourElemMsg setOk = (st, [])) := by
  refine ⟨rfl, rfl, rfl, fun st setOk => rfl⟩

/-- Claim C4 (amended): an inbound control-channel message is actionable exactly
when it is an array of exactly 3 elements whose element at index 2 is a bulk
string with a non-NULL payload (the command name); every message of any other
shape is silently discarded: no response effects and no change to shared state. -/
theorem actionable_iff_exactly_three (msg : RObj) (st : CmdState) (setOk : Bool) :
    ((actionable msg).isSome ↔
      ∃ a b cmd, msg = RObj.array (some [a, b, RObj.bulkString (some cmd)])) ∧
    (actionable msg = none → handleMessage st msg setOk = (st, [])) := by
  constructor
  · cases msg with
    | array o =>
      cases o with
      | none => simp [actionable]
      | some objs =>
        rcases objs with _ | ⟨a, _ | ⟨b, _ | ⟨c, _ | ⟨e, rest⟩⟩⟩⟩
        · simp [actionable]
        · simp [actionable]
        · simp [actionable]
        · cases c with
          | bulkString oc =>
            cases oc with
            | none => simp [actionable]
            | some s =>
              exact ⟨fun _ => ⟨a, b, s, rfl⟩, fun _ => rfl⟩
          | noType => simp [actionable]
          | simpleString v => simp [actionable]
          | err v => simp [actionable]
          | integer n => simp [actionable]
          | array v => simp [actionable]
        · simp [actionable]
    | noType => simp [actionable]
    | simpleString v => simp [actionable]
    | err v => simp [actionable]
    | integer n => simp [actionable]
    | bulkString v => simp [actionable]
  · intro h
    simp [handleMessage, h]

/-- Concrete instances of `actionable_iff_exactly_three`: a well-formed
3-element command message is actionable, and a non-array message (a bare
integer) is discarded with no effects and no state change. -/
theorem actionable_iff_exactly_three_witness :
    actionable (cmdMsg mcName) = some mcName ∧
    handleMessage ⟨42, 10, 3, true⟩ (RObj.integer 7) true = (⟨42, 10, 3, true⟩, []) := by
  have h := actionable_iff_exactly_three (RObj.integer 7) ⟨42, 10, 3, true⟩ true
  exact ⟨rfl, h.2 rfl⟩

/-- Claim C5 counterexample: the main control flow does wait for the command
loop's exit — `pthread_join(commandThread, ...)` is one of the two joins
performed during shutdown (main.c:485) — refuting "does not wait for the command
loop's exit". -/
theorem shutdown_join_command_counterexample :
    Worker.command ∈ shutdownJoins := by
  decide

/-- Claim C5 (amended): after `running` becomes false, the shutdown sequence
reaches the stopped state by waiting for the activity loop and the command loop
to fully exit, and does not wait for the watch (self-report/rate) loop's exit;
the liveness-polling loop runs on the main control flow itself, so no join is
performed for it. -/
theorem shutdown_joins_spec :
    shutdownJoins = [Worker.activity, Worker.command] ∧
    Worker.activity ∈ shutdownJoins ∧
    Worker.command ∈ shutdownJoins ∧
    Worker.watch ∉ shutdownJoins ∧
    Worker.livenessPoller ∉ shutdownJoins := by
  refine ⟨rfl, by decide, by decide, by decide, by decide⟩

/-- Claim C7: for every command that produces a response, the handler opens a
temporary connection, writes the response under the key
`"spheremon:command:result:<command-name>"`, publishes the same value on the
identically named channel, and closes the temporary connection — in that order,
and whether or not the key write succeeded (`setOk` is arbitrary), so a failed
write never prevents the publish attempt. -/
theorem respond_effects_spec (st : CmdState) (msg : RObj) (cmd : Str)
    (resp : String) (setOk : Bool)
    (hact : actionable msg = some cmd) (hresp : (dispatch st cmd).2 = some resp) :
    handleMessage st msg setOk =
      ((dispatch st cmd).1,
        [Effect.openConn,
         Effect.setKey (resultNS ++ cmd) resp setOk,
         Effect.publish (resultNS ++ cmd) resp,
         Effect.closeConn]) ∧
    Effect.publish (resultNS ++ cmd) resp ∈ (handleMessage st msg setOk).2 := by
  have hd : dispatch st cmd = ((dispatch st cmd).1, some resp) := by
    rw [← hresp]
  have hm : handleMessage st msg setOk =
      ((dispatch st cmd).1, respondEffects cmd resp setOk) :=
    handleMessage_resp st msg cmd resp setOk (dispatch st cmd).1 hact hd
  refine ⟨hm.trans rfl, ?_⟩
  rw [hm]
  simp [respondEffects]

/-- Concrete instance of `respond_effects_spec`: the `"message-count"` command
with `msgCount = 42` and a failing key write still opens a connection, attempts
the write of `"42"`, publishes `"42"` on the same channel name, and closes the
connection. -/
theorem respond_effects_spec_witness :
    handleMessage ⟨42, 10, 3, true⟩ (cmdMsg mcName) false =
      (⟨42, 10, 3, true⟩,
        [Effect.openConn,
         Effect.setKey (resultNS ++ mcName) "42" false,
         Effect.publish (resultNS ++ mcName) "42" ,
         Effect.closeConn]) := by
  have h := respond_effects_spec ⟨42, 10, 3, true⟩ (cmdMsg mcName) mcName "42" false
    rfl (by decide)
  exact h.1.trans (by decide)

end Spheremon
